import Mathlib

/-!
Shallow embedding of the contribution-chain verification pipeline of the
trusted-setup ceremony repository (src/verify.ts and src/utils.ts).

Filesystem reads (`fs.readdirSync`) are modelled by a function
`fs : String → List String` mapping a folder name (relative to the
contribution root) to the list of file names it contains, and the external
verifier subprocess (`execSync` of `snarkjs zkvi`) by an oracle
`exec : String → String → String → ExecOutcome` giving the subprocess result
for the three positional path arguments.
-/

/-- Lexicographic comparison of character lists by code point, modelling the
comparison that JavaScript `Array.prototype.sort()`'s default comparator
performs on strings (UTF-16 code-unit order; identical to code-point order on
the ASCII folder and file names this repository handles). A strict prefix
compares smaller. -/
def lexLt : List Char → List Char → Bool
  | [], [] => false
  | [], _ :: _ => true
  | _ :: _, [] => false
  | a :: as, b :: bs => if a < b then true else if b < a then false else lexLt as bs

/-- Non-strict string order induced by `lexLt`; `JS sort` ascending order. -/
def strLe (a b : String) : Prop := lexLt b.data a.data = false

instance : DecidableRel strLe :=
  fun a b => inferInstanceAs (Decidable (lexLt b.data a.data = false))

/-- Root directory holding the contribution folders (utils.ts,
`contributionRootFolder`). -/
def contributionRootFolder : String := "./contributions"

/-- Node `path.join` restricted to the two-segment uses in verify.ts: the
separator is inserted between the components.  Node's normalization of the
leading `./` is not modelled; the produced paths are only ever handed to the
verifier oracle and compared for equality. -/
def pathJoin (a b : String) : String := a ++ "/" ++ b

/-- JavaScript `String.prototype.endsWith`. -/
def strEndsWith (s suffix : String) : Bool := List.isSuffixOf suffix.data s.data

/-- Characters of the basename after the last path separator (helper for node
`path.basename`); directory entries returned by `readdirSync` never contain a
separator, in which case this is the identity. -/
def afterLastSlash (l : List Char) : List Char :=
  l.foldl (fun acc c => if c = '/' then [] else acc ++ [c]) []

/-- Node `path.basename(p, ext)`: the component after the last separator, with
the suffix `ext` removed when it is a proper suffix of that component. -/
def pathBasenameExt (p ext : String) : String :=
  let base := afterLastSlash p.data
  if base ≠ ext.data ∧ List.isSuffixOf ext.data base = true then
    String.mk (base.take (base.length - ext.data.length))
  else String.mk base

/-- utils.ts `getZkeyFiles`: the entries of the folder whose name ends in
`.zkey`, in directory-listing order. -/
def getZkeyFiles (fs : String → List String) (directory : String) : List String :=
  (fs directory).filter (fun file => strEndsWith file ".zkey")

/-- JavaScript regular-expression test `/^\d{4}_/` digit class (`[0-9]`). -/
def isDigitCode (c : Char) : Bool := 48 ≤ c.toNat && c.toNat ≤ 57

/-- utils.ts `getContributionFolders` filter: `f.match(/^\d{4}_/)`, i.e. four
digits followed by an underscore at the start of the name. -/
def matchesOrdinalPat (f : String) : Bool :=
  match f.data with
  | a :: b :: c :: d :: e :: _ =>
      isDigitCode a && isDigitCode b && isDigitCode c && isDigitCode d && e == '_'
  | _ => false

/-- Numeric value of the leading four-digit ordinal of a conforming folder
name (not computed by the source; used to state the ordering property). -/
def ordinalOfName (f : String) : Nat :=
  match f.data with
  | a :: b :: c :: d :: _ =>
      (((a.toNat - 48) * 10 + (b.toNat - 48)) * 10 + (c.toNat - 48)) * 10 + (d.toNat - 48)
  | _ => 0

/-- utils.ts `getContributionFolders`: filter the root's subdirectory names by
the ordinal-prefixed pattern and sort ascending (JS `Array.prototype.sort`
default comparator, a stable lexicographic sort, modelled by the stable
`insertionSort` over `strLe`). `dirs` is the listing of the contribution
root. -/
def getContributionFolders (dirs : List String) : List String :=
  List.insertionSort strLe (dirs.filter matchesOrdinalPat)

/-- verify.ts `VerificationResult` record. -/
structure VerificationResult where
  contributionFolder : String
  circuitName : String
  success : Bool
  errorMessage : Option String
deriving DecidableEq

/-- Result of one invocation of the external verifier subprocess, as observed
by `execSync`: exit status 0, or an exception carrying `some message` when the
thrown value is an `Error` and `none` otherwise. -/
inductive ExecOutcome where
  | exitZero
  | failure (msg : Option String)
deriving DecidableEq

/-- Return type of verify.ts `verifyZkeyContribution`. -/
structure PairResult where
  success : Bool
  errorMessage : Option String
deriving DecidableEq

/-- verify.ts `verifyZkeyContribution`: run the external `snarkjs zkvi`
subprocess on the three paths; exit 0 yields success with no message, a
thrown error yields failure carrying the error message when available and the
fixed string "Unknown error" otherwise. -/
def verifyZkeyContribution (exec : String → String → String → ExecOutcome)
    (initialZkeyFile ptauFile contributionZkeyFile : String) : PairResult :=
  match exec initialZkeyFile ptauFile contributionZkeyFile with
  | .exitZero => { success := true, errorMessage := none }
  | .failure msg => { success := false, errorMessage := some (msg.getD "Unknown error") }

/-- Body of the `for (const zkeyFile of contributionZkeyFiles)` loop of
verify.ts `verifyContribution`, acting on the accumulator
`(allSuccessful, results)`. -/
def verifyStep (exec : String → String → String → ExecOutcome)
    (contributionFolder initialFolder ptauFile : String)
    (initialZkeyFiles : List String)
    (acc : Bool × List VerificationResult) (zkeyFile : String) :
    Bool × List VerificationResult :=
  let circuitName := pathBasenameExt zkeyFile ".zkey"
  match initialZkeyFiles.find? (fun file => file == zkeyFile) with
  | none =>
      (false, acc.2 ++ [{ contributionFolder := contributionFolder,
                          circuitName := circuitName,
                          success := false,
                          errorMessage := some "Missing initial zkey file" }])
  | some initialZkeyFile =>
      let fullInitialZkeyPath :=
        pathJoin (pathJoin contributionRootFolder initialFolder) initialZkeyFile
      let fullContributionZkeyPath :=
        pathJoin (pathJoin contributionRootFolder contributionFolder) zkeyFile
      let r := verifyZkeyContribution exec fullInitialZkeyPath ptauFile fullContributionZkeyPath
      (if r.success then acc.1 else false,
       acc.2 ++ [{ contributionFolder := contributionFolder,
                   circuitName := circuitName,
                   success := r.success,
                   errorMessage := r.errorMessage }])

/-- verify.ts `verifyContribution`: short-circuit with `false` when either
folder holds no `.zkey` file, otherwise loop over the contribution folder's
`.zkey` files appending one `VerificationResult` each to `results`, returning
whether all were successful together with the extended results list. -/
def verifyContribution (fs : String → List String)
    (exec : String → String → String → ExecOutcome)
    (contributionFolder initialFolder ptauFile : String)
    (results : List VerificationResult) : Bool × List VerificationResult :=
  let contributionZkeyFiles := getZkeyFiles fs contributionFolder
  if contributionZkeyFiles.length = 0 then (false, results)
  else
    let initialZkeyFiles := getZkeyFiles fs initialFolder
    if initialZkeyFiles.length = 0 then (false, results)
    else
      contributionZkeyFiles.foldl
        (verifyStep exec contributionFolder initialFolder ptauFile initialZkeyFiles)
        (true, results)

/-- Outcome appended for a single artifact of the current folder: the
unmatched-artifact failure when no same-named initial file exists, otherwise
the external verifier's result on the joined paths (the two branches of the
loop body of `verifyContribution`). -/
def artifactOutcome (exec : String → String → String → ExecOutcome)
    (contributionFolder initialFolder ptauFile : String)
    (initialZkeyFiles : List String) (zkeyFile : String) : VerificationResult :=
  match initialZkeyFiles.find? (fun file => file == zkeyFile) with
  | none =>
      { contributionFolder := contributionFolder,
        circuitName := pathBasenameExt zkeyFile ".zkey",
        success := false,
        errorMessage := some "Missing initial zkey file" }
  | some initialZkeyFile =>
      let r := verifyZkeyContribution exec
        (pathJoin (pathJoin contributionRootFolder initialFolder) initialZkeyFile) ptauFile
        (pathJoin (pathJoin contributionRootFolder contributionFolder) zkeyFile)
      { contributionFolder := contributionFolder,
        circuitName := pathBasenameExt zkeyFile ".zkey",
        success := r.success,
        errorMessage := r.errorMessage }

/-- Results contributed by one folder: what `verifyContribution` appends to an
empty results list. -/
def folderOutcomes (fs : String → List String)
    (exec : String → String → String → ExecOutcome)
    (contributionFolder initialFolder ptauFile : String) : List VerificationResult :=
  (verifyContribution fs exec contributionFolder initialFolder ptauFile []).2

/-- Verification phase of verify.ts `main`: with fewer than two contribution
folders there is nothing to verify; otherwise every folder after the first is
verified against `contributionFolders[0]`, accumulating the shared results
list. -/
def runVerification (fs : String → List String)
    (exec : String → String → String → ExecOutcome)
    (contributionFolders : List String) (ptauFile : String) : List VerificationResult :=
  if contributionFolders.length < 2 then []
  else
    (contributionFolders.drop 1).foldl
      (fun results currentFolder =>
        (verifyContribution fs exec currentFolder (contributionFolders.headD "") ptauFile
          results).2)
      []

/-- Observable result of the verification run of verify.ts `main` after setup:
either the early "nothing to verify" return, or the results list handed to
`printResultsTable`. -/
inductive RunReport where
  | nothingToVerify
  | summary (results : List VerificationResult)
deriving DecidableEq

/-- verify.ts `main`, from the point where the folder list is final: order the
folders, return early when fewer than two exist, otherwise verify the chain
and report the accumulated results. `dirs` is the subdirectory listing of the
contribution root. -/
def mainVerify (fs : String → List String)
    (exec : String → String → String → ExecOutcome)
    (dirs : List String) (ptauFile : String) : RunReport :=
  let contributionFolders := getContributionFolders dirs
  if contributionFolders.length < 2 then .nothingToVerify
  else .summary (runVerification fs exec contributionFolders ptauFile)

/-- One invocation of the external verifier subprocess recorded with the loop
variables that produced it. -/
structure VerifierCall where
  folder : String
  zkeyFile : String
  initialZkeyPath : String
  ptauPath : String
  contributionZkeyPath : String
deriving DecidableEq

/-- Trace of the external-verifier invocations performed by
`verifyContribution` for one folder: the loop reaches `verifyZkeyContribution`
exactly for the matched artifacts, with the joined paths as arguments. -/
def verifyContributionCalls (fs : String → List String)
    (contributionFolder initialFolder ptauFile : String) : List VerifierCall :=
  let contributionZkeyFiles := getZkeyFiles fs contributionFolder
  if contributionZkeyFiles.length = 0 then []
  else
    let initialZkeyFiles := getZkeyFiles fs initialFolder
    if initialZkeyFiles.length = 0 then []
    else
      contributionZkeyFiles.filterMap (fun zkeyFile =>
        match initialZkeyFiles.find? (fun file => file == zkeyFile) with
        | none => none
        | some initialZkeyFile => some
            { folder := contributionFolder,
              zkeyFile := zkeyFile,
              initialZkeyPath :=
                pathJoin (pathJoin contributionRootFolder initialFolder) initialZkeyFile,
              ptauPath := ptauFile,
              contributionZkeyPath :=
                pathJoin (pathJoin contributionRootFolder contributionFolder) zkeyFile })

/-- Trace of the external-verifier invocations of the whole run of verify.ts
`main`: every folder after the first, in order, against
`contributionFolders[0]`. -/
def chainVerifierCalls (fs : String → List String)
    (contributionFolders : List String) (ptauFile : String) : List VerifierCall :=
  if contributionFolders.length < 2 then []
  else
    ((contributionFolders.drop 1).map (fun currentFolder =>
      verifyContributionCalls fs currentFolder (contributionFolders.headD "") ptauFile)).flatten

/-- Verifier-invocation trace that the claim wording describes: each folder at
chain position i is verified against the folder at position i-1 (its immediate
predecessor) rather than against the fixed baseline.  Stated from the claim's
words, for comparison with `chainVerifierCalls`. -/
def chainVerifierCallsBySpec (fs : String → List String)
    (contributionFolders : List String) (ptauFile : String) : List VerifierCall :=
  if contributionFolders.length < 2 then []
  else
    ((contributionFolders.zip (contributionFolders.drop 1)).map (fun pair =>
      verifyContributionCalls fs pair.2 pair.1 ptauFile)).flatten

/-- Deduplication keeping the first occurrence: key order of a JavaScript
object built by insertion (`reduce` into a `Record`) and element order of
`[...new Set(xs)]`.  Contribution folder and circuit names are never
array-index strings, so JS preserves pure insertion order for them. -/
def dedupFirst (l : List String) : List String :=
  l.foldl (fun acc x => if x ∈ acc then acc else acc ++ [x]) []

/-- Key order of the `folderGroups` record of verify.ts `printResultsTable`:
first occurrence of each `contributionFolder` in the results list. -/
def groupKeysInOrder (results : List VerificationResult) : List String :=
  dedupFirst (results.map (fun r => r.contributionFolder))

/-- Rows grouped per folder in verify.ts `printResultsTable`:
`folderGroups[folder]`. -/
def folderGroup (results : List VerificationResult) (folder : String) :
    List VerificationResult :=
  results.filter (fun r => r.contributionFolder == folder)

/-- Column headers of verify.ts `printResultsTable`:
`[...new Set(results.map(r => r.circuitName))].sort()`. -/
def allCircuits (results : List VerificationResult) : List String :=
  List.insertionSort strLe (dedupFirst (results.map (fun r => r.circuitName)))

/-- Row order of the printed table of verify.ts `printResultsTable`:
`Object.keys(folderGroups).sort()`. -/
def tableRowOrder (results : List VerificationResult) : List String :=
  List.insertionSort strLe (groupKeysInOrder results)

/-- Overall totals printed by `printResultsTable`. -/
def totalTests (results : List VerificationResult) : Nat := results.length

/-- Passed count printed by `printResultsTable`. -/
def passedTests (results : List VerificationResult) : Nat :=
  (results.filter (fun r => r.success)).length

/-! ### Order facts about the embedded JS string comparison -/

/-- Asymmetry of the lexicographic comparison. -/
theorem lexLt_asymm : ∀ (l₁ l₂ : List Char), lexLt l₁ l₂ = true → lexLt l₂ l₁ = false
  | [], [], h => by simp [lexLt] at h
  | [], _ :: _, _ => by simp [lexLt]
  | _ :: _, [], h => by simp [lexLt] at h
  | a :: as, b :: bs, h => by
      simp only [lexLt] at h ⊢
      by_cases hab : a < b
      · rw [if_neg (lt_asymm hab), if_pos hab]
      · rw [if_neg hab] at h
        by_cases hba : b < a
        · rw [if_pos hba] at h
          exact absurd h (by simp)
        · rw [if_neg hba] at h
          rw [if_neg hba, if_neg hab]
          exact lexLt_asymm as bs h

/-- Transitivity of the complement of the lexicographic comparison. -/
theorem lexLt_false_trans : ∀ (l₁ l₂ l₃ : List Char),
    lexLt l₂ l₁ = false → lexLt l₃ l₂ = false → lexLt l₃ l₁ = false
  | [], _, [], _, _ => rfl
  | [], _, _ :: _, _, _ => rfl
  | _ :: _, [], [], h₁, _ => by simp [lexLt] at h₁
  | _ :: _, _ :: _, [], _, h₂ => by simp [lexLt] at h₂
  | _ :: _, [], _ :: _, h₁, _ => by simp [lexLt] at h₁
  | a :: as, b :: bs, c :: cs, h₁, h₂ => by
      simp only [lexLt] at h₁ h₂ ⊢
      by_cases hba : b < a
      · rw [if_pos hba] at h₁
        exact absurd h₁ (by simp)
      rw [if_neg hba] at h₁
      by_cases hcb : c < b
      · rw [if_pos hcb] at h₂
        exact absurd h₂ (by simp)
      rw [if_neg hcb] at h₂
      have hab' : a ≤ b := not_lt.mp hba
      have hbc' : b ≤ c := not_lt.mp hcb
      rw [if_neg (not_lt.mpr (le_trans hab' hbc'))]
      by_cases hac : a < c
      · rw [if_pos hac]
      · rw [if_neg hac]
        have hab2 : ¬ a < b := fun h => absurd (lt_of_lt_of_le h hbc') hac
        have hbc2 : ¬ b < c := fun h => absurd (lt_of_le_of_lt hab' h) hac
        rw [if_neg hab2] at h₁
        rw [if_neg hbc2] at h₂
        exact lexLt_false_trans as bs cs h₁ h₂

instance : IsTotal String strLe :=
  ⟨fun a b => by
    unfold strLe
    by_cases h : lexLt b.data a.data = true
    · exact Or.inr (lexLt_asymm _ _ h)
    · exact Or.inl (by simpa using h)⟩

instance : IsTrans String strLe :=
  ⟨fun a b c hab hbc => lexLt_false_trans a.data b.data c.data hab hbc⟩

/-! ### Structural lemmas about the per-folder loop -/

/-- One loop step appends exactly the outcome of the processed artifact. -/
theorem verifyStep_snd (exec : String → String → String → ExecOutcome)
    (cf inf ptau : String) (izk : List String)
    (acc : Bool × List VerificationResult) (z : String) :
    (verifyStep exec cf inf ptau izk acc z).2
      = acc.2 ++ [artifactOutcome exec cf inf ptau izk z] := by
  unfold verifyStep artifactOutcome
  cases h : izk.find? (fun file => file == z) <;> simp [h]

/-- The loop over the artifact list appends one outcome per artifact, in
order, whatever the starting accumulator. -/
theorem foldl_verifyStep_snd (exec : String → String → String → ExecOutcome)
    (cf inf ptau : String) (izk : List String) :
    ∀ (l : List String) (acc : Bool × List VerificationResult),
      (l.foldl (verifyStep exec cf inf ptau izk) acc).2
        = acc.2 ++ l.map (artifactOutcome exec cf inf ptau izk)
  | [], acc => by simp
  | z :: l, acc => by
      rw [List.foldl_cons, foldl_verifyStep_snd exec cf inf ptau izk l _, verifyStep_snd]
      simp

/-- `verifyContribution` only ever appends to the caller's results list. -/
theorem verifyContribution_snd (fs : String → List String)
    (exec : String → String → String → ExecOutcome)
    (cf inf ptau : String) (results : List VerificationResult) :
    (verifyContribution fs exec cf inf ptau results).2
      = results ++ folderOutcomes fs exec cf inf ptau := by
  unfold folderOutcomes verifyContribution
  by_cases h1 : (getZkeyFiles fs cf).length = 0
  · simp [h1]
  · by_cases h2 : (getZkeyFiles fs inf).length = 0
    · simp [h1, h2]
    · simp only [if_neg h1, if_neg h2]
      rw [foldl_verifyStep_snd, foldl_verifyStep_snd]
      simp

/-- When both folders hold artifacts, the folder's outcomes are exactly one
per artifact of the current folder, in listing order. -/
theorem folderOutcomes_eq_map (fs : String → List String)
    (exec : String → String → String → ExecOutcome) (cf inf ptau : String)
    (h1 : (getZkeyFiles fs cf).length ≠ 0) (h2 : (getZkeyFiles fs inf).length ≠ 0) :
    folderOutcomes fs exec cf inf ptau
      = (getZkeyFiles fs cf).map (artifactOutcome exec cf inf ptau (getZkeyFiles fs inf)) := by
  unfold folderOutcomes verifyContribution
  simp only [if_neg h1, if_neg h2]
  rw [foldl_verifyStep_snd]
  simp

/-- When either folder holds no artifact the folder contributes no outcome. -/
theorem folderOutcomes_empty (fs : String → List String)
    (exec : String → String → String → ExecOutcome) (cf inf ptau : String)
    (h : (getZkeyFiles fs cf).length = 0 ∨ (getZkeyFiles fs inf).length = 0) :
    folderOutcomes fs exec cf inf ptau = [] := by
  unfold folderOutcomes verifyContribution
  rcases h with h | h
  · simp [h]
  · by_cases h1 : (getZkeyFiles fs cf).length = 0
    · simp [h1]
    · simp [if_neg h1, h]

/-- The chain fold appends the per-folder outcome blocks in folder order. -/
theorem foldl_verifyContribution (fs : String → List String)
    (exec : String → String → String → ExecOutcome) (b ptau : String) :
    ∀ (l : List String) (acc : List VerificationResult),
      l.foldl (fun results currentFolder =>
          (verifyContribution fs exec currentFolder b ptau results).2) acc
        = acc ++ (l.map (fun f => folderOutcomes fs exec f b ptau)).flatten
  | [], acc => by simp
  | f :: l, acc => by
      rw [List.foldl_cons, foldl_verifyContribution fs exec b ptau l _,
        verifyContribution_snd]
      simp

/-- The run is the concatenation of the per-folder blocks of every folder
after the first, in order. -/
theorem runVerification_eq_flatten (fs : String → List String)
    (exec : String → String → String → ExecOutcome)
    (folders : List String) (ptau : String) (h : 2 ≤ folders.length) :
    runVerification fs exec folders ptau
      = ((folders.drop 1).map
          (fun f => folderOutcomes fs exec f (folders.headD "") ptau)).flatten := by
  unfold runVerification
  rw [if_neg (by omega)]
  rw [foldl_verifyContribution]
  simp

/-! ### Facts about artifact matching -/

/-- A successful JS `find` with an equality predicate returns the key. -/
theorem find_beq_eq_some {l : List String} {z w : String}
    (h : l.find? (fun file => file == z) = some w) : w = z := by
  have := List.find?_some h
  simpa using this

/-- JS `find` with an equality predicate on a list containing the key. -/
theorem find_beq_self {l : List String} {z : String} (h : z ∈ l) :
    l.find? (fun file => file == z) = some z := by
  cases hf : l.find? (fun file => file == z) with
  | none =>
      have := List.find?_eq_none.mp hf z h
      simp at this
  | some w => rw [find_beq_eq_some hf]

/-- JS `find` with an equality predicate on a list missing the key. -/
theorem find_beq_none {l : List String} {z : String} (h : z ∉ l) :
    l.find? (fun file => file == z) = none := by
  rw [List.find?_eq_none]
  intro a ha
  simp only [beq_iff_eq]
  intro he
  exact h (he ▸ ha)

/-- Every outcome is labelled with the current folder. -/
theorem artifactOutcome_folder (exec : String → String → String → ExecOutcome)
    (cf inf ptau : String) (izk : List String) (z : String) :
    (artifactOutcome exec cf inf ptau izk z).contributionFolder = cf := by
  unfold artifactOutcome
  cases izk.find? (fun file => file == z) <;> simp

/-- Every outcome's circuit name is the artifact's basename without the
extension. -/
theorem artifactOutcome_circuit (exec : String → String → String → ExecOutcome)
    (cf inf ptau : String) (izk : List String) (z : String) :
    (artifactOutcome exec cf inf ptau izk z).circuitName = pathBasenameExt z ".zkey" := by
  unfold artifactOutcome
  cases izk.find? (fun file => file == z) <;> simp

/-- The unmatched-artifact branch of the loop. -/
theorem artifactOutcome_unmatched (exec : String → String → String → ExecOutcome)
    (cf inf ptau : String) (izk : List String) (z : String) (h : z ∉ izk) :
    artifactOutcome exec cf inf ptau izk z =
      { contributionFolder := cf, circuitName := pathBasenameExt z ".zkey",
        success := false, errorMessage := some "Missing initial zkey file" } := by
  unfold artifactOutcome
  rw [find_beq_none h]

/-- The matched branch of the loop: the outcome carries the external
verifier's result on the two joined paths for the same-named files. -/
theorem artifactOutcome_matched (exec : String → String → String → ExecOutcome)
    (cf inf ptau : String) (izk : List String) (z : String) (h : z ∈ izk) :
    artifactOutcome exec cf inf ptau izk z =
      { contributionFolder := cf, circuitName := pathBasenameExt z ".zkey",
        success := (verifyZkeyContribution exec
            (pathJoin (pathJoin contributionRootFolder inf) z) ptau
            (pathJoin (pathJoin contributionRootFolder cf) z)).success,
        errorMessage := (verifyZkeyContribution exec
            (pathJoin (pathJoin contributionRootFolder inf) z) ptau
            (pathJoin (pathJoin contributionRootFolder cf) z)).errorMessage } := by
  unfold artifactOutcome
  rw [find_beq_self h]

/-! ### The zero-padded ordinal order agrees with the lexicographic order -/

/-- Bounds extracted from the digit test. -/
theorem isDigitCode_bounds {c : Char} (h : isDigitCode c = true) :
    48 ≤ c.toNat ∧ c.toNat ≤ 57 := by
  simpa [isDigitCode] using h

/-- Characters with equal code points are equal. -/
theorem char_eq_of_toNat {a b : Char} (h : a.toNat = b.toNat) : a = b :=
  Char.ext (UInt32.ext h)

/-- Code-point comparison gives character comparison. -/
theorem char_lt_of_toNat {a b : Char} (h : a.toNat < b.toNat) : a < b := by
  rw [Char.lt_def]
  exact h

/-- Two names starting with four zero-padded digits compare lexicographically
the way their four-digit values compare, whatever follows the digits. -/
theorem lexLt_four_digits (a b c d a2 b2 c2 d2 : Char) (rs rt : List Char)
    (ha : 48 ≤ a.toNat ∧ a.toNat ≤ 57) (hb : 48 ≤ b.toNat ∧ b.toNat ≤ 57)
    (hc : 48 ≤ c.toNat ∧ c.toNat ≤ 57) (hd : 48 ≤ d.toNat ∧ d.toNat ≤ 57)
    (ha2 : 48 ≤ a2.toNat ∧ a2.toNat ≤ 57) (hb2 : 48 ≤ b2.toNat ∧ b2.toNat ≤ 57)
    (hc2 : 48 ≤ c2.toNat ∧ c2.toNat ≤ 57) (hd2 : 48 ≤ d2.toNat ∧ d2.toNat ≤ 57)
    (h : (((a.toNat - 48) * 10 + (b.toNat - 48)) * 10 + (c.toNat - 48)) * 10 + (d.toNat - 48)
       < (((a2.toNat - 48) * 10 + (b2.toNat - 48)) * 10 + (c2.toNat - 48)) * 10
           + (d2.toNat - 48)) :
    lexLt (a :: b :: c :: d :: rs) (a2 :: b2 :: c2 :: d2 :: rt) = true := by
  simp only [lexLt]
  rcases Nat.lt_trichotomy a.toNat a2.toNat with h1 | h1 | h1
  · rw [if_pos (char_lt_of_toNat h1)]
  · have haa : a = a2 := char_eq_of_toNat h1
    subst haa
    rw [if_neg (lt_irrefl a), if_neg (lt_irrefl a)]
    rcases Nat.lt_trichotomy b.toNat b2.toNat with h2 | h2 | h2
    · rw [if_pos (char_lt_of_toNat h2)]
    · have hbb : b = b2 := char_eq_of_toNat h2
      subst hbb
      rw [if_neg (lt_irrefl b), if_neg (lt_irrefl b)]
      rcases Nat.lt_trichotomy c.toNat c2.toNat with h3 | h3 | h3
      · rw [if_pos (char_lt_of_toNat h3)]
      · have hcc : c = c2 := char_eq_of_toNat h3
        subst hcc
        rw [if_neg (lt_irrefl c), if_neg (lt_irrefl c)]
        rcases Nat.lt_trichotomy d.toNat d2.toNat with h4 | h4 | h4
        · rw [if_pos (char_lt_of_toNat h4)]
        · exfalso
          omega
        · exfalso
          omega
      · exfalso
        omega
    · exfalso
      omega
  · exfalso
    omega

/-- Shape of a name accepted by the ordinal-pattern filter. -/
theorem matchesOrdinalPat_shape {s : String} (hs : matchesOrdinalPat s = true) :
    ∃ a b c d e rest, s.data = a :: b :: c :: d :: e :: rest ∧
      isDigitCode a = true ∧ isDigitCode b = true ∧ isDigitCode c = true ∧
      isDigitCode d = true ∧ e = '_' := by
  unfold matchesOrdinalPat at hs
  rcases hsd : s.data with _ | ⟨a, _ | ⟨b, _ | ⟨c, _ | ⟨d, _ | ⟨e, rest⟩⟩⟩⟩⟩ <;>
    rw [hsd] at hs <;> simp at hs
  obtain ⟨⟨⟨⟨h1, h2⟩, h3⟩, h4⟩, h5⟩ := hs
  exact ⟨a, b, c, d, e, rest, rfl, h1, h2, h3, h4, h5⟩

/-- For conforming names, the numeric order of the four-digit ordinal implies
the strict lexicographic order. -/
theorem ordinal_lt_imp_lexLt (s t : String)
    (hs : matchesOrdinalPat s = true) (ht : matchesOrdinalPat t = true)
    (h : ordinalOfName s < ordinalOfName t) : lexLt s.data t.data = true := by
  obtain ⟨a, b, c, d, e, rest, hsd, ha, hb, hc, hd, he⟩ := matchesOrdinalPat_shape hs
  obtain ⟨a2, b2, c2, d2, e2, rest2, htd, ha2, hb2, hc2, hd2, he2⟩ := matchesOrdinalPat_shape ht
  unfold ordinalOfName at h
  rw [hsd, htd] at h
  rw [hsd, htd]
  exact lexLt_four_digits a b c d a2 b2 c2 d2 (e :: rest) (e2 :: rest2)
    (isDigitCode_bounds ha) (isDigitCode_bounds hb) (isDigitCode_bounds hc)
    (isDigitCode_bounds hd) (isDigitCode_bounds ha2) (isDigitCode_bounds hb2)
    (isDigitCode_bounds hc2) (isDigitCode_bounds hd2) h

/-! ### Deduplication (JS object key order, `new Set`) -/

/-- Membership in the first-occurrence deduplication fold. -/
theorem dedupFirst_aux_mem : ∀ (l acc : List String) (x : String),
    (x ∈ l.foldl (fun acc y => if y ∈ acc then acc else acc ++ [y]) acc)
      ↔ x ∈ acc ∨ x ∈ l
  | [], acc, x => by simp
  | y :: l, acc, x => by
      rw [List.foldl_cons, dedupFirst_aux_mem l _ x]
      by_cases h : y ∈ acc
      · rw [if_pos h]
        simp only [List.mem_cons]
        constructor
        · rintro (hx | hx)
          · exact Or.inl hx
          · exact Or.inr (Or.inr hx)
        · rintro (hx | hx | hx)
          · exact Or.inl hx
          · exact Or.inl (hx ▸ h)
          · exact Or.inr hx
      · rw [if_neg h]
        simp only [List.mem_append, List.mem_cons, List.not_mem_nil, or_false]
        constructor
        · rintro ((hx | hx) | hx)
          · exact Or.inl hx
          · exact Or.inr (Or.inl hx)
          · exact Or.inr (Or.inr hx)
        · rintro (hx | hx | hx)
          · exact Or.inl (Or.inl hx)
          · exact Or.inl (Or.inr hx)
          · exact Or.inr hx

/-- The deduplicated list holds exactly the elements of the input. -/
theorem dedupFirst_mem (l : List String) (x : String) : x ∈ dedupFirst l ↔ x ∈ l := by
  unfold dedupFirst
  rw [dedupFirst_aux_mem]
  simp

/-- The deduplication fold preserves distinctness of the accumulator. -/
theorem dedupFirst_aux_nodup : ∀ (l acc : List String), acc.Nodup →
    (l.foldl (fun acc y => if y ∈ acc then acc else acc ++ [y]) acc).Nodup
  | [], _, h => by simpa using h
  | y :: l, acc, h => by
      rw [List.foldl_cons]
      by_cases hy : y ∈ acc
      · rw [if_pos hy]
        exact dedupFirst_aux_nodup l acc h
      · rw [if_neg hy]
        refine dedupFirst_aux_nodup l _ ?_
        rw [List.nodup_append]
        exact ⟨h, List.nodup_singleton y,
          fun a ha hay => hy ((List.mem_singleton.mp hay) ▸ ha)⟩

/-- The deduplicated list has no duplicates. -/
theorem dedupFirst_nodup (l : List String) : (dedupFirst l).Nodup :=
  dedupFirst_aux_nodup l [] List.nodup_nil

/-! ### Locating one folder's block inside the flattened run -/

/-- The block of any listed folder appears contiguously in the concatenation
of all blocks. -/
theorem flatten_block_of_mem {α β : Type} (g : α → List β) {f : α} {l : List α}
    (h : f ∈ l) : ∃ s t, s ++ g f ++ t = (l.map g).flatten := by
  obtain ⟨l₁, l₂, rfl⟩ := List.append_of_mem h
  exact ⟨(l₁.map g).flatten, (l₂.map g).flatten, by simp⟩

/-- One folder's outcomes depend on the verifier oracle only at the calls
made for that folder's matched artifacts. -/
theorem folderOutcomes_congr (fs : String → List String)
    (exec₁ exec₂ : String → String → String → ExecOutcome) (cf inf ptau : String)
    (hagree : ∀ z ∈ getZkeyFiles fs cf,
      exec₁ (pathJoin (pathJoin contributionRootFolder inf) z) ptau
          (pathJoin (pathJoin contributionRootFolder cf) z)
        = exec₂ (pathJoin (pathJoin contributionRootFolder inf) z) ptau
            (pathJoin (pathJoin contributionRootFolder cf) z)) :
    folderOutcomes fs exec₁ cf inf ptau = folderOutcomes fs exec₂ cf inf ptau := by
  by_cases h1 : (getZkeyFiles fs cf).length = 0
  · rw [folderOutcomes_empty _ _ _ _ _ (Or.inl h1),
      folderOutcomes_empty _ _ _ _ _ (Or.inl h1)]
  by_cases h2 : (getZkeyFiles fs inf).length = 0
  · rw [folderOutcomes_empty _ _ _ _ _ (Or.inr h2),
      folderOutcomes_empty _ _ _ _ _ (Or.inr h2)]
  rw [folderOutcomes_eq_map _ _ _ _ _ h1 h2, folderOutcomes_eq_map _ _ _ _ _ h1 h2]
  refine List.map_congr_left ?_
  intro z hz
  by_cases hz2 : z ∈ getZkeyFiles fs inf
  · rw [artifactOutcome_matched _ _ _ _ _ _ hz2, artifactOutcome_matched _ _ _ _ _ _ hz2]
    unfold verifyZkeyContribution
    rw [hagree z hz]
  · rw [artifactOutcome_unmatched _ _ _ _ _ _ hz2, artifactOutcome_unmatched _ _ _ _ _ _ hz2]

/-! ### Shape and multiplicity of the verifier-call trace -/

/-- Every recorded call of one folder's trace was made for an artifact of that
folder matched in the initial folder, with the joined paths of the same-named
files as arguments. -/
theorem verifyContributionCalls_shape (fs : String → List String)
    (cf inf ptau : String) :
    ∀ cl ∈ verifyContributionCalls fs cf inf ptau,
      cl.folder = cf ∧ cl.ptauPath = ptau ∧
      cl.zkeyFile ∈ getZkeyFiles fs cf ∧ cl.zkeyFile ∈ getZkeyFiles fs inf ∧
      cl.initialZkeyPath = pathJoin (pathJoin contributionRootFolder inf) cl.zkeyFile ∧
      cl.contributionZkeyPath = pathJoin (pathJoin contributionRootFolder cf) cl.zkeyFile := by
  unfold verifyContributionCalls
  by_cases h1 : (getZkeyFiles fs cf).length = 0
  · simp [h1]
  by_cases h2 : (getZkeyFiles fs inf).length = 0
  · simp [h1, h2]
  simp only [if_neg h1, if_neg h2]
  intro cl hcl
  obtain ⟨z, hz, he⟩ := List.mem_filterMap.mp hcl
  cases hf : (getZkeyFiles fs inf).find? (fun file => file == z) with
  | none =>
      rw [hf] at he
      simp at he
  | some w =>
      have hw : w = z := find_beq_eq_some hf
      have hmem : w ∈ getZkeyFiles fs inf := List.mem_of_find?_eq_some hf
      rw [hf] at he
      simp only [Option.some.injEq] at he
      rw [← he, hw]
      exact ⟨rfl, rfl, hz, hw ▸ hmem, rfl, rfl⟩

/-- No call is recorded for an artifact name absent from the processed list. -/
theorem countP_callBlock_zero (izk : List String) (cf inf ptau f z : String) :
    ∀ l : List String, z ∉ l →
      List.countP (fun cl : VerifierCall => cl.folder == f && cl.zkeyFile == z)
        (l.filterMap (fun zkeyFile =>
          match izk.find? (fun file => file == zkeyFile) with
          | none => none
          | some initialZkeyFile => some
              ({ folder := cf, zkeyFile := zkeyFile,
                 initialZkeyPath :=
                   pathJoin (pathJoin contributionRootFolder inf) initialZkeyFile,
                 ptauPath := ptau,
                 contributionZkeyPath :=
                   pathJoin (pathJoin contributionRootFolder cf) zkeyFile } : VerifierCall))) = 0
  | [], _ => by simp
  | x :: l, hnz => by
      have hxz : x ≠ z := fun h => hnz (List.mem_cons.mpr (Or.inl h.symm))
      have hz1 : z ∉ l := fun h => hnz (List.mem_cons.mpr (Or.inr h))
      cases hfind : izk.find? (fun file => file == x) with
      | none =>
          simp only [List.filterMap_cons, hfind]
          exact countP_callBlock_zero izk cf inf ptau f z l hz1
      | some w =>
          simp only [List.filterMap_cons, hfind, List.countP_cons]
          have : (x == z) = false := by simp [hxz]
          simp only [this, Bool.and_false, if_false]
          rw [countP_callBlock_zero izk cf inf ptau f z l hz1]
          simp

/-- Exactly one call is recorded for a matched artifact of a duplicate-free
listing. -/
theorem countP_callBlock_one (izk : List String) (cf inf ptau z : String)
    (hziz : z ∈ izk) :
    ∀ l : List String, l.Nodup → z ∈ l →
      List.countP (fun cl : VerifierCall => cl.folder == cf && cl.zkeyFile == z)
        (l.filterMap (fun zkeyFile =>
          match izk.find? (fun file => file == zkeyFile) with
          | none => none
          | some initialZkeyFile => some
              ({ folder := cf, zkeyFile := zkeyFile,
                 initialZkeyPath :=
                   pathJoin (pathJoin contributionRootFolder inf) initialZkeyFile,
                 ptauPath := ptau,
                 contributionZkeyPath :=
                   pathJoin (pathJoin contributionRootFolder cf) zkeyFile } : VerifierCall))) = 1
  | [], _, hz => absurd hz (List.not_mem_nil z)
  | x :: l, hnd, hz => by
      by_cases hxz : x = z
      · have hxmem : x ∈ izk := by rw [hxz]; exact hziz
        have hfind := find_beq_self hxmem
        simp only [List.filterMap_cons, hfind, List.countP_cons]
        have hzl : z ∉ l := by
          rw [← hxz]
          exact (List.nodup_cons.mp hnd).1
        rw [countP_callBlock_zero izk cf inf ptau cf z l hzl]
        simp [hxz]
      · have hzl : z ∈ l := by
          rcases List.mem_cons.mp hz with h | h
          · exact absurd h.symm hxz
          · exact h
        have hrec := countP_callBlock_one izk cf inf ptau z hziz l
          (List.nodup_cons.mp hnd).2 hzl
        cases hfind : izk.find? (fun file => file == x) with
        | none =>
            simp only [List.filterMap_cons, hfind]
            exact hrec
        | some w =>
            simp only [List.filterMap_cons, hfind, List.countP_cons]
            have : (x == z) = false := by simp [hxz]
            simp only [this, Bool.and_false, if_false]
            rw [hrec]
            simp

/-- One matched artifact of one folder yields exactly one verifier call. -/
theorem countP_verifyContributionCalls_one (fs : String → List String)
    (cf inf ptau z : String)
    (hnd : (getZkeyFiles fs cf).Nodup) (hz : z ∈ getZkeyFiles fs cf)
    (hm : z ∈ getZkeyFiles fs inf) :
    List.countP (fun cl => cl.folder == cf && cl.zkeyFile == z)
      (verifyContributionCalls fs cf inf ptau) = 1 := by
  unfold verifyContributionCalls
  rw [if_neg (fun h => List.ne_nil_of_mem hz (List.length_eq_zero.mp h)),
    if_neg (fun h => List.ne_nil_of_mem hm (List.length_eq_zero.mp h))]
  exact countP_callBlock_one (getZkeyFiles fs inf) cf inf ptau z hm
    (getZkeyFiles fs cf) hnd hz

/-- Another folder's trace records no call attributed to this folder. -/
theorem countP_verifyContributionCalls_zero (fs : String → List String)
    (cf inf ptau f z : String) (hne : cf ≠ f) :
    List.countP (fun cl => cl.folder == f && cl.zkeyFile == z)
      (verifyContributionCalls fs cf inf ptau) = 0 := by
  rw [List.countP_eq_zero]
  intro cl hcl
  have hfold := (verifyContributionCalls_shape fs cf inf ptau cl hcl).1
  simp only [Bool.and_eq_true, beq_iff_eq, not_and]
  intro h _
  exact hne (hfold ▸ h)

/-- A folder outside the iterated list contributes no call to the chain. -/
theorem countP_chainBlocks_zero (fs : String → List String) (b ptau f z : String) :
    ∀ L : List String, f ∉ L →
      List.countP (fun cl => cl.folder == f && cl.zkeyFile == z)
        ((L.map (fun cf => verifyContributionCalls fs cf b ptau)).flatten) = 0
  | [], _ => by simp
  | x :: L, hf => by
      rw [List.map_cons, List.flatten_cons, List.countP_append]
      rw [countP_verifyContributionCalls_zero fs x b ptau f z
        (fun h => hf (List.mem_cons.mpr (Or.inl h.symm)))]
      rw [countP_chainBlocks_zero fs b ptau f z L
        (fun h => hf (List.mem_cons.mpr (Or.inr h)))]

/-- Across the chain's per-folder blocks, a matched pair of a duplicate-free
folder list is invoked exactly once. -/
theorem countP_chainBlocks_one (fs : String → List String) (b ptau f z : String)
    (hfz : (getZkeyFiles fs f).Nodup) (hz : z ∈ getZkeyFiles fs f)
    (hm : z ∈ getZkeyFiles fs b) :
    ∀ L : List String, L.Nodup → f ∈ L →
      List.countP (fun cl => cl.folder == f && cl.zkeyFile == z)
        ((L.map (fun cf => verifyContributionCalls fs cf b ptau)).flatten) = 1
  | [], _, hf => absurd hf (List.not_mem_nil f)
  | x :: L, hnd, hf => by
      rw [List.map_cons, List.flatten_cons, List.countP_append]
      by_cases hxf : x = f
      · rw [hxf]
        rw [countP_verifyContributionCalls_one fs f b ptau z hfz hz hm]
        have hfL : f ∉ L := hxf ▸ (List.nodup_cons.mp hnd).1
        rw [countP_chainBlocks_zero fs b ptau f z L hfL]
      · rw [countP_verifyContributionCalls_zero fs x b ptau f z hxf]
        have hfL : f ∈ L := (List.mem_cons.mp hf).resolve_left (fun h => hxf h.symm)
        rw [countP_chainBlocks_one fs b ptau f z hfz hz hm L
          (List.nodup_cons.mp hnd).2 hfL]

/-- Every outcome of one folder's block carries that folder's name. -/
theorem folderOutcomes_folder (fs : String → List String)
    (exec : String → String → String → ExecOutcome) (cf inf ptau : String) :
    ∀ r ∈ folderOutcomes fs exec cf inf ptau, r.contributionFolder = cf := by
  by_cases h1 : (getZkeyFiles fs cf).length = 0
  · rw [folderOutcomes_empty _ _ _ _ _ (Or.inl h1)]
    simp
  by_cases h2 : (getZkeyFiles fs inf).length = 0
  · rw [folderOutcomes_empty _ _ _ _ _ (Or.inr h2)]
    simp
  rw [folderOutcomes_eq_map _ _ _ _ _ h1 h2]
  intro r hr
  obtain ⟨z, hz, rfl⟩ := List.mem_map.mp hr
  exact artifactOutcome_folder exec cf inf ptau _ z

/-! ### Claims -/

/-- C1: for every ordered folder list of length at least 2, the chain driver
verifies exactly the folders at indices 1 and above, each against the folder
at index 0: the run's outcome list is the concatenation of the per-folder
blocks of the folders after the first; each block (when matching happens) has
one outcome per matched pair, carrying the verifier's result, and one
fixed-message failure per unmatched artifact; the baseline itself is never
iterated and, for distinct folder names, labels no outcome. -/
theorem claim_c1_chain_driver (fs : String → List String)
    (exec : String → String → String → ExecOutcome)
    (folders : List String) (ptau : String) (h2 : 2 ≤ folders.length) :
    runVerification fs exec folders ptau
      = ((folders.drop 1).map
          (fun f => folderOutcomes fs exec f (folders.headD "") ptau)).flatten
    ∧ (∀ f, (getZkeyFiles fs f).length ≠ 0 →
        (getZkeyFiles fs (folders.headD "")).length ≠ 0 →
        folderOutcomes fs exec f (folders.headD "") ptau
          = (getZkeyFiles fs f).map
              (artifactOutcome exec f (folders.headD "") ptau
                (getZkeyFiles fs (folders.headD ""))))
    ∧ (∀ f z, z ∈ getZkeyFiles fs (folders.headD "") →
        artifactOutcome exec f (folders.headD "") ptau
            (getZkeyFiles fs (folders.headD "")) z
          = { contributionFolder := f, circuitName := pathBasenameExt z ".zkey",
              success := (verifyZkeyContribution exec
                  (pathJoin (pathJoin contributionRootFolder (folders.headD "")) z) ptau
                  (pathJoin (pathJoin contributionRootFolder f) z)).success,
              errorMessage := (verifyZkeyContribution exec
                  (pathJoin (pathJoin contributionRootFolder (folders.headD "")) z) ptau
                  (pathJoin (pathJoin contributionRootFolder f) z)).errorMessage })
    ∧ (∀ f z, z ∉ getZkeyFiles fs (folders.headD "") →
        artifactOutcome exec f (folders.headD "") ptau
            (getZkeyFiles fs (folders.headD "")) z
          = { contributionFolder := f, circuitName := pathBasenameExt z ".zkey",
              success := false, errorMessage := some "Missing initial zkey file" })
    ∧ (folders.Nodup →
        ∀ r ∈ runVerification fs exec folders ptau,
          r.contributionFolder ≠ folders.headD "") := by
  refine ⟨runVerification_eq_flatten fs exec folders ptau h2, ?_, ?_, ?_, ?_⟩
  · intro f hf1 hf2
    exact folderOutcomes_eq_map fs exec f _ ptau hf1 hf2
  · intro f z hz
    exact artifactOutcome_matched exec f _ ptau _ z hz
  · intro f z hz
    exact artifactOutcome_unmatched exec f _ ptau _ z hz
  · intro hnd r hr
    rw [runVerification_eq_flatten fs exec folders ptau h2] at hr
    obtain ⟨blk, hblk, hrblk⟩ := List.mem_flatten.mp hr
    obtain ⟨f, hfmem, rfl⟩ := List.mem_map.mp hblk
    rw [folderOutcomes_folder fs exec f _ ptau r hrblk]
    cases folders with
    | nil => simp at h2
    | cons x rest =>
        simp only [List.headD_cons]
        simp only [List.drop_succ_cons, List.drop_zero] at hfmem
        intro heq
        exact (List.nodup_cons.mp hnd).1 (heq ▸ hfmem)

theorem claim_c1_witness :
    2 ≤ (["0000_i", "0001_a"] : List String).length
    ∧ runVerification (fun _ => ["m.zkey"]) (fun _ _ _ => ExecOutcome.exitZero)
        ["0000_i", "0001_a"] "p"
      = (((["0000_i", "0001_a"] : List String).drop 1).map
          (fun f => folderOutcomes (fun _ => ["m.zkey"]) (fun _ _ _ => ExecOutcome.exitZero)
            f ((["0000_i", "0001_a"] : List String).headD "") "p")).flatten :=
  ⟨by decide,
   (claim_c1_chain_driver (fun _ => ["m.zkey"]) (fun _ _ _ => ExecOutcome.exitZero)
     ["0000_i", "0001_a"] "p" (by decide)).1⟩

/-- C2 (counterexample): with three folders each holding the artifact
`m.zkey`, the verifier calls the run actually makes differ from the calls the
claim describes (each folder against its immediate predecessor): the third
folder is verified against folder 0, not folder 1. -/
theorem claim_c2_counterexample :
    chainVerifierCalls (fun _ => ["m.zkey"]) ["0000_i", "0001_a", "0002_b"] "p"
      ≠ chainVerifierCallsBySpec (fun _ => ["m.zkey"]) ["0000_i", "0001_a", "0002_b"] "p" := by
  decide

/-- C2 (amended): the artifact pair handed to the external verifier for every
folder after the first consists of that folder's artifact and the same-named
artifact of the folder at position 0 (the baseline), not of the immediately
preceding folder; the two descriptions coincide exactly when the chain has
only one non-baseline folder. -/
theorem claim_c2_amended (fs : String → List String)
    (folders : List String) (ptau : String) (h2 : 2 ≤ folders.length) :
    (∀ cl ∈ chainVerifierCalls fs folders ptau,
        cl.folder ∈ folders.drop 1
      ∧ cl.zkeyFile ∈ getZkeyFiles fs cl.folder
      ∧ cl.zkeyFile ∈ getZkeyFiles fs (folders.headD "")
      ∧ cl.initialZkeyPath
          = pathJoin (pathJoin contributionRootFolder (folders.headD "")) cl.zkeyFile
      ∧ cl.contributionZkeyPath
          = pathJoin (pathJoin contributionRootFolder cl.folder) cl.zkeyFile
      ∧ cl.ptauPath = ptau)
    ∧ (folders.length = 2 →
        chainVerifierCalls fs folders ptau = chainVerifierCallsBySpec fs folders ptau) := by
  constructor
  · intro cl hcl
    unfold chainVerifierCalls at hcl
    rw [if_neg (by omega)] at hcl
    obtain ⟨blk, hblk, hclblk⟩ := List.mem_flatten.mp hcl
    obtain ⟨f, hfmem, rfl⟩ := List.mem_map.mp hblk
    obtain ⟨hfold, hptau, hcur, hini, hipath, hcpath⟩ :=
      verifyContributionCalls_shape fs f (folders.headD "") ptau cl hclblk
    rw [hfold]
    exact ⟨hfmem, hcur, hini, hipath, hcpath, hptau⟩
  · intro hlen
    cases folders with
    | nil => simp at hlen
    | cons a rest =>
        cases rest with
        | nil => simp at hlen
        | cons b rest2 =>
            cases rest2 with
            | nil =>
                simp [chainVerifierCalls, chainVerifierCallsBySpec]
            | cons c rest3 => simp at hlen

theorem claim_c2_amended_witness :
    2 ≤ (["0000_i", "0001_a"] : List String).length
    ∧ ((["0000_i", "0001_a"] : List String).length = 2 →
        chainVerifierCalls (fun _ => ["m.zkey"]) ["0000_i", "0001_a"] "p"
          = chainVerifierCallsBySpec (fun _ => ["m.zkey"]) ["0000_i", "0001_a"] "p") :=
  ⟨by decide,
   (claim_c2_amended (fun _ => ["m.zkey"]) ["0000_i", "0001_a"] "p" (by decide)).2⟩

/-- C3: for a run over three or more folders, a verifier failure while
processing one folder never suppresses the outcomes of the other folders:
the adapter converts every non-zero exit into a success=false result instead
of propagating, and for any oracle agreeing on the calls of the other
folders, those folders' outcome blocks are identical and still present,
contiguously, inside the run's outcome list. -/
theorem claim_c3_partial_failure (fs : String → List String)
    (exec₁ exec₂ : String → String → String → ExecOutcome)
    (folders : List String) (ptau g : String) (h3 : 3 ≤ folders.length)
    (hagree : ∀ f, f ∈ folders.drop 1 → f ≠ g → ∀ z ∈ getZkeyFiles fs f,
      exec₁ (pathJoin (pathJoin contributionRootFolder (folders.headD "")) z) ptau
          (pathJoin (pathJoin contributionRootFolder f) z)
        = exec₂ (pathJoin (pathJoin contributionRootFolder (folders.headD "")) z) ptau
            (pathJoin (pathJoin contributionRootFolder f) z)) :
    (∀ i p c, (verifyZkeyContribution exec₁ i p c).success = true
        ↔ exec₁ i p c = ExecOutcome.exitZero)
    ∧ ∀ f, f ∈ folders.drop 1 → f ≠ g →
        folderOutcomes fs exec₁ f (folders.headD "") ptau
          = folderOutcomes fs exec₂ f (folders.headD "") ptau
        ∧ ∃ s t, s ++ folderOutcomes fs exec₁ f (folders.headD "") ptau ++ t
            = runVerification fs exec₁ folders ptau := by
  constructor
  · intro i p c
    unfold verifyZkeyContribution
    cases h : exec₁ i p c with
    | exitZero => simp
    | failure m => simp
  · intro f hf hfg
    constructor
    · exact folderOutcomes_congr fs exec₁ exec₂ f _ ptau
        (fun z hz => hagree f hf hfg z hz)
    · rw [runVerification_eq_flatten fs exec₁ folders ptau (by omega)]
      exact flatten_block_of_mem
        (fun f => folderOutcomes fs exec₁ f (folders.headD "") ptau) hf

theorem claim_c3_witness :
    folderOutcomes (fun _ => ["m.zkey"])
        (fun _ _ c => if c = "./contributions/0001_a/m.zkey" then
          ExecOutcome.failure none else ExecOutcome.exitZero)
        "0002_b" "0000_i" "p"
      = folderOutcomes (fun _ => ["m.zkey"]) (fun _ _ _ => ExecOutcome.exitZero)
          "0002_b" "0000_i" "p"
    ∧ ∃ s t, s ++ folderOutcomes (fun _ => ["m.zkey"])
          (fun _ _ c => if c = "./contributions/0001_a/m.zkey" then
            ExecOutcome.failure none else ExecOutcome.exitZero)
          "0002_b" "0000_i" "p" ++ t
        = runVerification (fun _ => ["m.zkey"])
            (fun _ _ c => if c = "./contributions/0001_a/m.zkey" then
              ExecOutcome.failure none else ExecOutcome.exitZero)
            ["0000_i", "0001_a", "0002_b"] "p" :=
  (claim_c3_partial_failure (fun _ => ["m.zkey"])
    (fun _ _ c => if c = "./contributions/0001_a/m.zkey" then
      ExecOutcome.failure none else ExecOutcome.exitZero)
    (fun _ _ _ => ExecOutcome.exitZero)
    ["0000_i", "0001_a", "0002_b"] "p" "0001_a" (by decide) (by decide)).2
    "0002_b" (by decide) (by decide)

/-- C4: matching is asymmetric and driven by the current folder: with both
folders non-empty, the outcomes are exactly one per artifact of the current
folder in listing order (so a baseline-only artifact yields no outcome), and
every current-folder artifact missing from the baseline yields the
fixed-message unmatched failure outcome while the remaining artifacts still
produce theirs. -/
theorem claim_c4_matching (fs : String → List String)
    (exec : String → String → String → ExecOutcome)
    (current baseline ptau : String)
    (hc : (getZkeyFiles fs current).length ≠ 0)
    (hb : (getZkeyFiles fs baseline).length ≠ 0) :
    folderOutcomes fs exec current baseline ptau
      = (getZkeyFiles fs current).map
          (artifactOutcome exec current baseline ptau (getZkeyFiles fs baseline))
    ∧ (folderOutcomes fs exec current baseline ptau).length
        = (getZkeyFiles fs current).length
    ∧ (∀ r ∈ folderOutcomes fs exec current baseline ptau,
        ∃ z ∈ getZkeyFiles fs current,
          r = artifactOutcome exec current baseline ptau (getZkeyFiles fs baseline) z)
    ∧ (∀ z ∈ getZkeyFiles fs current, z ∉ getZkeyFiles fs baseline →
        ({ contributionFolder := current, circuitName := pathBasenameExt z ".zkey",
           success := false, errorMessage := some "Missing initial zkey file" }
          : VerificationResult) ∈ folderOutcomes fs exec current baseline ptau) := by
  have hmap := folderOutcomes_eq_map fs exec current baseline ptau hc hb
  refine ⟨hmap, by rw [hmap]; simp, ?_, ?_⟩
  · intro r hr
    rw [hmap] at hr
    obtain ⟨z, hz, rfl⟩ := List.mem_map.mp hr
    exact ⟨z, hz, rfl⟩
  · intro z hz hnz
    rw [hmap, ← artifactOutcome_unmatched exec current baseline ptau _ z hnz]
    exact List.mem_map_of_mem _ hz

theorem claim_c4_witness :
    pathBasenameExt "c.zkey" ".zkey" = "c"
    ∧ ({ contributionFolder := "0001_a", circuitName := pathBasenameExt "c.zkey" ".zkey",
         success := false, errorMessage := some "Missing initial zkey file" }
        : VerificationResult)
      ∈ folderOutcomes
          (fun d => if d = "0000_i" then ["a.zkey", "b.zkey"] else ["a.zkey", "c.zkey"])
          (fun _ _ _ => ExecOutcome.exitZero) "0001_a" "0000_i" "p" :=
  ⟨by decide,
   (claim_c4_matching
     (fun d => if d = "0000_i" then ["a.zkey", "b.zkey"] else ["a.zkey", "c.zkey"])
     (fun _ _ _ => ExecOutcome.exitZero) "0001_a" "0000_i" "p"
     (by decide) (by decide)).2.2.2 "c.zkey" (by decide) (by decide)⟩

/-- C5: when the current folder or the baseline folder holds no artifact with
the recognized extension, verification of that folder is aborted before any
external-verifier invocation: the call returns the folder-level failure flag
with the results list unchanged, no per-circuit outcome and no verifier call
is recorded for it, and the chain's outcome list is exactly what it would be
without that folder. -/
theorem claim_c5_folder_level_abort (fs : String → List String)
    (exec : String → String → String → ExecOutcome)
    (current baseline ptau : String) (results : List VerificationResult)
    (h : (getZkeyFiles fs current).length = 0 ∨ (getZkeyFiles fs baseline).length = 0) :
    verifyContribution fs exec current baseline ptau results = (false, results)
    ∧ folderOutcomes fs exec current baseline ptau = []
    ∧ verifyContributionCalls fs current baseline ptau = []
    ∧ (∀ l₁ l₂, runVerification fs exec (baseline :: l₁ ++ current :: l₂) ptau
        = runVerification fs exec (baseline :: (l₁ ++ l₂)) ptau) := by
  refine ⟨?_, folderOutcomes_empty fs exec current baseline ptau h, ?_, ?_⟩
  · unfold verifyContribution
    rcases h with h | h
    · rw [if_pos h]
    · by_cases h1 : (getZkeyFiles fs current).length = 0
      · rw [if_pos h1]
      · rw [if_neg h1, if_pos h]
  · unfold verifyContributionCalls
    rcases h with h | h
    · rw [if_pos h]
    · by_cases h1 : (getZkeyFiles fs current).length = 0
      · rw [if_pos h1]
      · rw [if_neg h1, if_pos h]
  · intro l₁ l₂
    have hlen : 2 ≤ (baseline :: l₁ ++ current :: l₂).length := by
      simp
      omega
    by_cases hnil : l₁ ++ l₂ = []
    · obtain ⟨rfl, rfl⟩ := List.append_eq_nil.mp hnil
      rw [runVerification_eq_flatten fs exec _ ptau hlen]
      unfold runVerification
      rw [if_pos (by simp)]
      show (List.map (fun f => folderOutcomes fs exec f baseline ptau) [current]).flatten = []
      simp only [List.map_cons, List.map_nil, List.flatten_cons, List.flatten_nil,
        List.append_nil]
      exact folderOutcomes_empty fs exec current baseline ptau h
    · have hlen2 : 2 ≤ (baseline :: (l₁ ++ l₂)).length := by
        have := List.length_pos.mpr hnil
        simp only [List.length_cons]
        omega
      rw [runVerification_eq_flatten fs exec _ ptau hlen,
        runVerification_eq_flatten fs exec _ ptau hlen2]
      show (List.map (fun f => folderOutcomes fs exec f baseline ptau)
              (l₁ ++ current :: l₂)).flatten
          = (List.map (fun f => folderOutcomes fs exec f baseline ptau) (l₁ ++ l₂)).flatten
      simp only [List.map_append, List.flatten_append, List.map_cons, List.flatten_cons]
      rw [folderOutcomes_empty fs exec current baseline ptau h]
      simp

theorem claim_c5_witness :
    ((getZkeyFiles (fun d => if d = "0001_a" then [] else ["m.zkey"]) "0001_a").length = 0
      ∨ (getZkeyFiles (fun d => if d = "0001_a" then [] else ["m.zkey"]) "0000_i").length = 0)
    ∧ verifyContribution (fun d => if d = "0001_a" then [] else ["m.zkey"])
        (fun _ _ _ => ExecOutcome.exitZero) "0001_a" "0000_i" "p" [] = (false, [])
    ∧ runVerification (fun d => if d = "0001_a" then [] else ["m.zkey"])
        (fun _ _ _ => ExecOutcome.exitZero) ("0000_i" :: [] ++ "0001_a" :: ["0002_b"]) "p"
      = runVerification (fun d => if d = "0001_a" then [] else ["m.zkey"])
          (fun _ _ _ => ExecOutcome.exitZero) ("0000_i" :: ([] ++ ["0002_b"])) "p" :=
  ⟨Or.inl (by decide),
   (claim_c5_folder_level_abort (fun d => if d = "0001_a" then [] else ["m.zkey"])
     (fun _ _ _ => ExecOutcome.exitZero) "0001_a" "0000_i" "p" []
     (Or.inl (by decide))).1,
   (claim_c5_folder_level_abort (fun d => if d = "0001_a" then [] else ["m.zkey"])
     (fun _ _ _ => ExecOutcome.exitZero) "0001_a" "0000_i" "p" []
     (Or.inl (by decide))).2.2.2 [] ["0002_b"]⟩

/-- C6: the external-verifier adapter returns success exactly on exit status
0; on a thrown error it returns success=false with the captured message when
one exists and the fixed string "Unknown error" otherwise; and across a chain
with distinct folder names and duplicate-free listings, each matched pair
gives rise to exactly one verifier invocation (no retries). -/
theorem claim_c6_adapter (exec : String → String → String → ExecOutcome)
    (i p c : String) :
    (exec i p c = ExecOutcome.exitZero →
      verifyZkeyContribution exec i p c = { success := true, errorMessage := none })
    ∧ (∀ m, exec i p c = ExecOutcome.failure (some m) →
      verifyZkeyContribution exec i p c = { success := false, errorMessage := some m })
    ∧ (exec i p c = ExecOutcome.failure none →
      verifyZkeyContribution exec i p c
        = { success := false, errorMessage := some "Unknown error" })
    ∧ (∀ (fs : String → List String) (folders : List String) (ptau f z : String),
        (folders.drop 1).Nodup → (getZkeyFiles fs f).Nodup →
        f ∈ folders.drop 1 → z ∈ getZkeyFiles fs f →
        z ∈ getZkeyFiles fs (folders.headD "") →
        List.countP (fun cl => cl.folder == f && cl.zkeyFile == z)
          (chainVerifierCalls fs folders ptau) = 1) := by
  refine ⟨?_, ?_, ?_, ?_⟩
  · intro h
    unfold verifyZkeyContribution
    rw [h]
  · intro m h
    unfold verifyZkeyContribution
    rw [h]
    rfl
  · intro h
    unfold verifyZkeyContribution
    rw [h]
    rfl
  · intro fs folders ptau f z hnd hfz hf hz hm
    have h1 := List.ne_nil_of_mem hf
    have hpos : 0 < (folders.drop 1).length := List.length_pos.mpr h1
    rw [List.length_drop] at hpos
    unfold chainVerifierCalls
    rw [if_neg (by omega)]
    exact countP_chainBlocks_one fs (folders.headD "") ptau f z hfz hz hm
      (folders.drop 1) hnd hf

theorem claim_c6_witness :
    verifyZkeyContribution (fun _ _ _ => ExecOutcome.failure none) "a" "b" "c"
      = { success := false, errorMessage := some "Unknown error" }
    ∧ List.countP (fun cl => cl.folder == "0001_a" && cl.zkeyFile == "m.zkey")
        (chainVerifierCalls (fun _ => ["m.zkey"]) ["0000_i", "0001_a"] "p") = 1 :=
  ⟨(claim_c6_adapter (fun _ _ _ => ExecOutcome.failure none) "a" "b" "c").2.2.1 rfl,
   (claim_c6_adapter (fun _ _ _ => ExecOutcome.failure none) "a" "b" "c").2.2.2
     (fun _ => ["m.zkey"]) ["0000_i", "0001_a"] "p" "0001_a" "m.zkey"
     (by decide) (by decide) (by decide) (by decide) (by decide)⟩

/-- C7: the contribution-folder listing returns exactly the directory names
matching the four-digit-underscore pattern, sorted lexically ascending, and
the empty list (not an error) when none match; and on conforming names the
numeric order of the zero-padded four-digit ordinal implies the strict
lexicographic order, so the lexical sort realizes numeric ordinal order. -/
theorem claim_c7_folder_listing (dirs : List String) :
    List.Perm (getContributionFolders dirs) (dirs.filter matchesOrdinalPat)
    ∧ List.Sorted strLe (getContributionFolders dirs)
    ∧ (dirs.filter matchesOrdinalPat = [] → getContributionFolders dirs = [])
    ∧ (∀ s t : String, matchesOrdinalPat s = true → matchesOrdinalPat t = true →
        ordinalOfName s < ordinalOfName t → lexLt s.data t.data = true) := by
  refine ⟨List.perm_insertionSort strLe _, List.sorted_insertionSort strLe _, ?_, ?_⟩
  · intro h
    unfold getContributionFolders
    rw [h]
    rfl
  · exact ordinal_lt_imp_lexLt

theorem claim_c7_witness :
    getContributionFolders ["0010_c", "junk", "0002_a"] = ["0002_a", "0010_c"]
    ∧ List.Sorted strLe (getContributionFolders ["0010_c", "junk", "0002_a"])
    ∧ lexLt "0002_a".data "0010_c".data = true :=
  ⟨by decide, (claim_c7_folder_listing ["0010_c", "junk", "0002_a"]).2.1,
   (claim_c7_folder_listing ["0010_c", "junk", "0002_a"]).2.2.2 "0002_a" "0010_c"
     (by decide) (by decide) (by decide)⟩

/-- C8: with fewer than two contribution folders, the run returns an empty
outcome sequence and reports that there is nothing to verify, completing
without error. -/
theorem claim_c8_nothing_to_verify (fs : String → List String)
    (exec : String → String → String → ExecOutcome) (dirs : List String)
    (ptau : String) (h : (getContributionFolders dirs).length < 2) :
    runVerification fs exec (getContributionFolders dirs) ptau = []
    ∧ mainVerify fs exec dirs ptau = RunReport.nothingToVerify := by
  constructor
  · unfold runVerification
    rw [if_pos h]
  · unfold mainVerify
    simp only [if_pos h]

theorem claim_c8_witness :
    (getContributionFolders ["0000_initial"]).length < 2
    ∧ runVerification (fun _ => ["m.zkey"]) (fun _ _ _ => ExecOutcome.exitZero)
        (getContributionFolders ["0000_initial"]) "p" = []
    ∧ mainVerify (fun _ => ["m.zkey"]) (fun _ _ _ => ExecOutcome.exitZero)
        ["0000_initial"] "p" = RunReport.nothingToVerify :=
  ⟨by decide,
   (claim_c8_nothing_to_verify (fun _ => ["m.zkey"]) (fun _ _ _ => ExecOutcome.exitZero)
     ["0000_initial"] "p" (by decide)).1,
   (claim_c8_nothing_to_verify (fun _ => ["m.zkey"]) (fun _ _ _ => ExecOutcome.exitZero)
     ["0000_initial"] "p" (by decide)).2⟩

/-- C9 (counterexample): the printed rows are not in first-occurrence
insertion order: with the folder `0002_b` appearing before `0001_a` in the
outcome list, the insertion order of the grouping keys is `0002_b, 0001_a`
while the table prints the rows sorted as `0001_a, 0002_b`. -/
theorem claim_c9_counterexample :
    tableRowOrder
        [{ contributionFolder := "0002_b", circuitName := "m",
           success := true, errorMessage := none },
         { contributionFolder := "0001_a", circuitName := "m",
           success := true, errorMessage := none }]
      ≠ groupKeysInOrder
        [{ contributionFolder := "0002_b", circuitName := "m",
           success := true, errorMessage := none },
         { contributionFolder := "0001_a", circuitName := "m",
           success := true, errorMessage := none }] := by
  decide

/-- C9 (amended): the report groups outcomes by contribution folder into a map
keyed in first-occurrence insertion order, but the printed rows are those
distinct folder names sorted lexically ascending (the source sorts the group
keys before printing); the columns are the distinct circuit names sorted
lexically ascending. -/
theorem claim_c9_amended (results : List VerificationResult) :
    List.Sorted strLe (tableRowOrder results)
    ∧ (∀ x, x ∈ tableRowOrder results
        ↔ x ∈ results.map (fun r => r.contributionFolder))
    ∧ (tableRowOrder results).Nodup
    ∧ List.Sorted strLe (allCircuits results)
    ∧ (∀ x, x ∈ allCircuits results ↔ x ∈ results.map (fun r => r.circuitName))
    ∧ (allCircuits results).Nodup := by
  refine ⟨List.sorted_insertionSort strLe _, ?_, ?_,
    List.sorted_insertionSort strLe _, ?_, ?_⟩
  · intro x
    unfold tableRowOrder groupKeysInOrder
    rw [List.mem_insertionSort]
    exact dedupFirst_mem _ x
  · unfold tableRowOrder
    exact ((List.perm_insertionSort strLe _).nodup_iff).mpr (dedupFirst_nodup _)
  · intro x
    unfold allCircuits
    rw [List.mem_insertionSort]
    exact dedupFirst_mem _ x
  · unfold allCircuits
    exact ((List.perm_insertionSort strLe _).nodup_iff).mpr (dedupFirst_nodup _)

/-- C10: in a full run over the lexically sorted folder list, the outcome list
is the concatenation of per-folder blocks in chain order (so outcomes are
contiguous per folder and earlier folders' outcomes precede later ones);
every outcome of a block is labelled with its folder, and when both the
folder and the baseline are non-empty the block has exactly one outcome per
listed artifact, in listing order. -/
theorem claim_c10_run_order (fs : String → List String)
    (exec : String → String → String → ExecOutcome) (dirs : List String)
    (ptau : String) (h2 : 2 ≤ (getContributionFolders dirs).length) :
    runVerification fs exec (getContributionFolders dirs) ptau
      = (((getContributionFolders dirs).drop 1).map
          (fun f => folderOutcomes fs exec f
            ((getContributionFolders dirs).headD "") ptau)).flatten
    ∧ List.Sorted strLe (getContributionFolders dirs)
    ∧ (∀ f, ∀ r ∈ folderOutcomes fs exec f
          ((getContributionFolders dirs).headD "") ptau,
        r.contributionFolder = f)
    ∧ (∀ f, (getZkeyFiles fs f).length ≠ 0 →
        (getZkeyFiles fs ((getContributionFolders dirs).headD "")).length ≠ 0 →
        (folderOutcomes fs exec f ((getContributionFolders dirs).headD "") ptau).map
            (fun r => r.circuitName)
          = (getZkeyFiles fs f).map (fun z => pathBasenameExt z ".zkey")
        ∧ (folderOutcomes fs exec f
              ((getContributionFolders dirs).headD "") ptau).length
          = (getZkeyFiles fs f).length) := by
  refine ⟨runVerification_eq_flatten fs exec _ ptau h2,
    List.sorted_insertionSort strLe _, ?_, ?_⟩
  · intro f
    exact folderOutcomes_folder fs exec f _ ptau
  · intro f hf1 hf2
    rw [folderOutcomes_eq_map fs exec f _ ptau hf1 hf2]
    constructor
    · rw [List.map_map]
      exact List.map_congr_left
        (fun z _ => artifactOutcome_circuit exec f _ ptau _ z)
    · simp

theorem claim_c10_witness :
    2 ≤ (getContributionFolders ["0001_a", "0000_i"]).length
    ∧ List.Sorted strLe (getContributionFolders ["0001_a", "0000_i"]) :=
  ⟨by decide,
   (claim_c10_run_order (fun _ => ["m.zkey"]) (fun _ _ _ => ExecOutcome.exitZero)
     ["0001_a", "0000_i"] "p" (by decide)).2.1⟩
